import Mathlib

/-!
Verification development for the eqnp computer-algebra core
(`src/eqnp/expressions.py`, `src/eqnp/functions.py`, `src/eqnp/parser.py`).

Modelling conventions:
* Numeric values are exact rationals (`ℚ`).  Python's `int`/`float`
  distinction only affects the runtime type, never the magnitude that the
  claims speak about, and host floating-point rounding is abstracted away.
* Python exceptions are modelled with `Except`: each exception kind that the
  source can actually raise has a constructor in `PyErr` (or `ParseErr` for
  the parser, which raises `ValueError('Unknown expression string: ...')`
  and can hit an `IndexError` on empty input).
* The recursive operations `evaluate` and `differentiate` can recurse through
  the variable environment (`vm.get(name).evaluate(vm)`), which terminates in
  Python only up to the interpreter's stack limit.  They therefore take a
  fuel argument that strictly decreases on every recursive call;
  `.recursionError` models exhaustion of the interpreter stack.  Every
  theorem below either holds for all fuels of the form `f + 1` or supplies a
  concrete fuel that is amply sufficient for the input at hand.
* `simplify` never recurses through the environment, so it is defined by
  ordinary structural recursion (its Python counterpart mutates child fields
  in place and returns `self`; the functional reading returns the same tree).
* Transcendental evaluation (`math.sin`, `math.cos`, fractional powers)
  produces values that have no exact rational representative; those branches
  are modelled by the `.irrationalResult` / `.complexResult` markers.  No
  claim exercises them.
-/

/-- Expression trees of `expressions.py` / `functions.py`.  `Addition`
subclasses `MultiOperandExpression` in this version of the source and stores
a list of operands; `Subtraction`, `Multiplication`, `Division` and
`Exponent` subclass `BinaryExpression` (left/right); the functions subclass
`UnaryExpression` (one child). -/
inductive Expr where
  | Number (value : ℚ)
  | Variable (name : String)
  | Addition (operands : List Expr)
  | Subtraction (left right : Expr)
  | Multiplication (left right : Expr)
  | Division (left right : Expr)
  | Exponent (left right : Expr)
  | AbsoluteValue (value : Expr)
  | Sine (value : Expr)
  | Cosine (value : Expr)

/-- Exception kinds raised by `evaluate`, `differentiate` and `simplify`. -/
inductive PyErr where
  | typeError
  | nameError
  | notImplementedError
  | zeroDivisionError
  | recursionError
  | noValueError (name : String)
  | keyError (name : String)
  | irrationalResult
  | complexResult
deriving DecidableEq

/-- Exception kinds raised by `parse_expression`. -/
inductive ParseErr where
  | malformed (text : List Char)
  | indexError
  | recursionError
deriving DecidableEq

/-- `VariableMap` of `expressions.py`: a wrapper around a dict from variable
names to expressions; `get` is dict lookup (raising `KeyError` if absent). -/
abbrev VariableMap := List (String × Expr)

/-- Test used by Python's `x == 0` / `x == 1` comparisons in the simplify
rules: `Number.__eq__` compares against a bare int, every other variant's
`__eq__` performs an `isinstance` check that a bare int fails. -/
def eqNum : Expr → ℚ → Bool
  | .Number v, q => v == q
  | _, _ => false

/-- Python `isinstance(x, Number)`. -/
def isNumber : Expr → Bool
  | .Number _ => true
  | _ => false

/-- Python `isinstance(x, Division)`. -/
def isDivision : Expr → Bool
  | .Division _ _ => true
  | _ => false

mutual
/-- Structural equality `__eq__` of `expressions.py`: same variant with
pairwise-equal fields (`Expression.__eq__` compares `__dict__`s), except
that `MultiOperandExpression.__eq__` (used by `Addition`) compares operand
lists by length plus set equality (`set(self.operands) ==
set(other.operands)`), i.e. mutual containment under `==`, ignoring order.
Python's hash-bucket lookup is modelled as containment under `==`, which
coincides whenever `__hash__` is consistent with `__eq__`. -/
def exprEq : Expr → Expr → Bool
  | .Number a, .Number b => a == b
  | .Variable a, .Variable b => a == b
  | .Addition xs, .Addition ys =>
      xs.length == ys.length && (subsetEq xs ys && subsetEq ys xs)
  | .Subtraction a b, .Subtraction c d => exprEq a c && exprEq b d
  | .Multiplication a b, .Multiplication c d => exprEq a c && exprEq b d
  | .Division a b, .Division c d => exprEq a c && exprEq b d
  | .Exponent a b, .Exponent c d => exprEq a c && exprEq b d
  | .AbsoluteValue a, .AbsoluteValue b => exprEq a b
  | .Sine a, .Sine b => exprEq a b
  | .Cosine a, .Cosine b => exprEq a b
  | _, _ => false
termination_by a b => sizeOf a + sizeOf b

/-- Membership of an expression in a list up to `exprEq` (Python set
containment). -/
def memEq : Expr → List Expr → Bool
  | _, [] => false
  | x, y :: ys => exprEq x y || memEq x ys
termination_by x ys => sizeOf x + sizeOf ys

/-- One-sided set containment of operand lists up to `exprEq`. -/
def subsetEq : List Expr → List Expr → Bool
  | [], _ => true
  | x :: xs, ys => memEq x ys && subsetEq xs ys
termination_by xs ys => sizeOf xs + sizeOf ys
end

/-- Python `a ** b` on exact rationals.  Integral exponents follow host
semantics exactly (`0 ** n` with negative `n` raises `ZeroDivisionError`).
A fractional exponent yields an inexact float (or a complex number when the
base is negative); neither has a rational representative, so those branches
carry markers.  No claim exercises them. -/
def pypow (a b : ℚ) : Except PyErr ℚ :=
  if b.den = 1 then
    if b.num < 0 ∧ a = 0 then .error .zeroDivisionError
    else .ok (a ^ b.num)
  else if a < 0 then .error .complexResult
  else .error .irrationalResult

/-- `evaluate` of `expressions.py` / `functions.py`.

* `Number.evaluate` returns its value (line 200).
* `Variable.evaluate` raises `ValueError` with no map, recurses through the
  binding otherwise (`vm.get(self.name).evaluate(vm)`, line 119); a missing
  key raises `KeyError` inside `VariableMap.get`.
* `Addition.evaluate` is `sum(self.operands)` (line 229): `sum` starts from
  the int `0` and adds the operand *objects*; `Expression` defines no
  `__add__`/`__radd__`, so any non-empty operand list raises `TypeError`
  (the empty sum would be `0`, though `MultiOperandExpression.__init__`
  refuses fewer than two operands).
* the remaining binary operators and the unary functions apply the host
  operator to the recursively evaluated children. -/
def evaluate : ℕ → Expr → Option VariableMap → Except PyErr ℚ
  | 0, _, _ => .error .recursionError
  | _ + 1, .Number v, _ => .ok v
  | f + 1, .Variable n, vm =>
      match vm with
      | none => .error (.noValueError n)
      | some m =>
          match m.lookup n with
          | none => .error (.keyError n)
          | some b => evaluate f b vm
  | _ + 1, .Addition ops, _ =>
      if ops.isEmpty then .ok 0 else .error .typeError
  | f + 1, .Subtraction l r, vm => do
      let a ← evaluate f l vm
      let b ← evaluate f r vm
      .ok (a - b)
  | f + 1, .Multiplication l r, vm => do
      let a ← evaluate f l vm
      let b ← evaluate f r vm
      .ok (a * b)
  | f + 1, .Division l r, vm => do
      let a ← evaluate f l vm
      let b ← evaluate f r vm
      if b = 0 then .error .zeroDivisionError else .ok (a / b)
  | f + 1, .Exponent l r, vm => do
      let a ← evaluate f l vm
      let b ← evaluate f r vm
      pypow a b
  | f + 1, .AbsoluteValue v, vm => do
      let a ← evaluate f v vm
      .ok (abs a)
  | f + 1, .Sine v, vm => do
      let _ ← evaluate f v vm
      .error .irrationalResult
  | f + 1, .Cosine v, vm => do
      let _ ← evaluate f v vm
      .error .irrationalResult

mutual
/-- `differentiate` of `expressions.py` / `functions.py`:

* `Number` → `Number(0)`;
* `Variable` → `Number(1)` when the name matches, otherwise recurse through
  the environment binding (raising `ValueError` with no map, `KeyError` on a
  missing name);
* `Addition` maps the derivative over its operands;
* `Multiplication.differentiate` raises
  `NotImplementedError('Differentiation of multiplication expressions has
  not been implemented')` (line 291);
* `Division`, `Exponent`, `AbsoluteValue`, `Sine`, `Cosine` build the
  quotient-rule, power-rule and chain-rule trees of the source verbatim. -/
def differentiate : ℕ → Expr → String → Option VariableMap → Except PyErr Expr
  | 0, _, _, _ => .error .recursionError
  | _ + 1, .Number _, _, _ => .ok (.Number 0)
  | f + 1, .Variable n, rt, vm =>
      if n = rt then .ok (.Number 1)
      else
        match vm with
        | none => .error (.noValueError n)
        | some m =>
            match m.lookup n with
            | none => .error (.keyError n)
            | some b => differentiate f b rt vm
  | f + 1, .Addition ops, rt, vm => do
      let ds ← diffList f ops rt vm
      .ok (.Addition ds)
  | f + 1, .Subtraction l r, rt, vm => do
      let dl ← differentiate f l rt vm
      let dr ← differentiate f r rt vm
      .ok (.Subtraction dl dr)
  | _ + 1, .Multiplication _ _, _, _ => .error .notImplementedError
  | f + 1, .Division l r, rt, vm => do
      let dl ← differentiate f l rt vm
      let dr ← differentiate f r rt vm
      .ok (.Division
            (.Subtraction (.Multiplication dl r) (.Multiplication l dr))
            (.Exponent r (.Number 2)))
  | f + 1, .Exponent l r, rt, vm => do
      let dl ← differentiate f l rt vm
      .ok (.Multiplication
            (.Multiplication r (.Exponent l (.Subtraction r (.Number 1))))
            dl)
  | f + 1, .AbsoluteValue v, rt, vm => do
      let dv ← differentiate f v rt vm
      .ok (.Multiplication (.Division (.AbsoluteValue v) v) dv)
  | f + 1, .Sine v, rt, vm => do
      let dv ← differentiate f v rt vm
      .ok (.Multiplication (.Cosine v) dv)
  | f + 1, .Cosine v, rt, vm => do
      let dv ← differentiate f v rt vm
      .ok (.Subtraction (.Number 0) (.Multiplication (.Sine v) dv))

/-- Derivatives of the operands of an `Addition`
(`[x.differentiate(respectTo, vm) for x in self.operands]`). -/
def diffList : ℕ → List Expr → String → Option VariableMap → Except PyErr (List Expr)
  | 0, _, _, _ => .error .recursionError
  | _ + 1, [], _, _ => .ok []
  | f + 1, x :: xs, rt, vm => do
      let d ← differentiate f x rt vm
      let ds ← diffList f xs rt vm
      .ok (d :: ds)
end

mutual
/-- `simplify` of `expressions.py` / `functions.py`, one bottom-up pass:

* `Number`, `Variable`, `Sine`, `Cosine` return themselves unchanged
  (`Sine`/`Cosine` do not even simplify their child);
* `Addition.simplify` simplifies the operands, then: if all operands are
  `Number`s it builds `Number(self.evaluate(None))` — but `Addition.evaluate`
  is `sum(self.operands)`, which raises `TypeError` on any non-empty operand
  list; if all operands are `Division`s over `==`-equal denominators it
  calls `Division(Addition(x.left for x in self.operands), d)` — passing a
  single generator argument to `Addition`, whose `__init__` raises
  `TypeError` for fewer than two operands (line 173); otherwise it returns
  itself;
* `Multiplication.simplify` begins with
  `self.operands = [x.simplify() for x in operands]` (line 294): the bare
  name `operands` is undefined (and `Multiplication` instances store
  `left`/`right`, not `operands`), so it raises `NameError` unconditionally;
* `Subtraction`, `Division`, `Exponent`, `AbsoluteValue` implement the
  rewrite rules of the source in source order, including `Division.simplify`
  returning `self.left` — the whole product — in its `(x*y)/y` branches
  (lines 371–374). -/
def simplify : Expr → Except PyErr Expr
  | .Number v => .ok (.Number v)
  | .Variable n => .ok (.Variable n)
  | .Addition ops => do
      let ops2 ← simplifyList ops
      if ops2.all isNumber then
        if ops2.isEmpty then .ok (.Number 0) else .error .typeError
      else if ops2.all isDivision then
        match ops2 with
        | .Division _ d0 :: rest =>
            if rest.all (fun x =>
                match x with
                | .Division _ dx => exprEq dx d0
                | _ => false) then
              .error .typeError
            else .ok (.Addition ops2)
        | _ => .ok (.Addition ops2)
      else .ok (.Addition ops2)
  | .Subtraction l r => do
      let l2 ← simplify l
      let r2 ← simplify r
      match l2, r2 with
      | .Number a, .Number b => .ok (.Number (a - b))
      | .Division ln ld, .Division rn rd =>
          if exprEq ld rd then .ok (.Division (.Subtraction ln rn) ld)
          else .ok (.Subtraction (.Division ln ld) (.Division rn rd))
      | a, b => .ok (.Subtraction a b)
  | .Multiplication _ _ => .error .nameError
  | .Division l r => do
      let l2 ← simplify l
      let r2 ← simplify r
      if eqNum l2 0 then .ok (.Number 0)
      else if eqNum r2 1 then .ok l2
      else
        match l2, r2 with
        | .Number a, .Number b =>
            if b = 0 then .error .zeroDivisionError else .ok (.Number (a / b))
        | a, b =>
            if (match a with
                | .Multiplication al _ => exprEq al b
                | _ => false) then .ok a
            else if (match a with
                | .Multiplication _ ar => exprEq ar b
                | _ => false) then .ok a
            else
              match a, b with
              | .Exponent lb le, .Exponent rb re =>
                  if exprEq lb rb then .ok (.Exponent lb (.Subtraction le re))
                  else .ok (.Division (.Exponent lb le) (.Exponent rb re))
              | a2, b2 => .ok (.Division a2 b2)
  | .Exponent l r => do
      let l2 ← simplify l
      let r2 ← simplify r
      if eqNum l2 0 then .ok (.Number 0)
      else if eqNum r2 0 then .ok (.Number 1)
      else if eqNum r2 1 then .ok l2
      else
        match l2, r2 with
        | .Number a, .Number b => do
            let v ← pypow a b
            .ok (.Number v)
        | .Exponent lb le, b => .ok (.Exponent lb (.Multiplication le b))
        | a, b => .ok (.Exponent a b)
  | .AbsoluteValue v => do
      let v2 ← simplify v
      match v2 with
      | .Number q =>
          if 0 ≤ q then .ok (.Number q) else .ok (.AbsoluteValue (.Number q))
      | .Exponent b (.Number q) =>
          if q.den = 1 ∧ q.num % 2 = 0 then .ok (.Exponent b (.Number q))
          else .ok (.AbsoluteValue (.Exponent b (.Number q)))
      | w => .ok (.AbsoluteValue w)
  | .Sine v => .ok (.Sine v)
  | .Cosine v => .ok (.Cosine v)

/-- Simplification mapped over an operand list
(`[x.simplify() for x in self.operands]`). -/
def simplifyList : List Expr → Except PyErr (List Expr)
  | [] => .ok []
  | x :: xs => do
      let y ← simplify x
      let ys ← simplifyList xs
      .ok (y :: ys)
end

/-- Whitespace removal of `parse_expression` (`text.replace(' ', '')`): only
space characters are removed. -/
def stripSpaces (l : List Char) : List Char := l.filter (fun c => c != ' ')

/-- Non-empty all-digit string. -/
def isDigits (l : List Char) : Bool := !l.isEmpty && l.all Char.isDigit

/-- Exponent suffix accepted by Python `float`: optional sign, then digits. -/
def expPart (l : List Char) : Bool :=
  match l with
  | [] => isDigits []
  | c :: t => if c = '+' || c = '-' then isDigits t else isDigits (c :: t)

/-- What may follow the mantissa in a Python `float` literal: nothing, or an
`e`/`E` exponent part. -/
def expTail (l : List Char) : Bool :=
  match l with
  | [] => true
  | c :: t => if c = 'e' || c = 'E' then expPart t else false

/-- Continuation of the float-literal scan after the integer digit part:
either a decimal point (with the fractional digits scanned the same way)
or directly the exponent suffix.  The first argument records whether the
integer part was non-empty. -/
def mantOk (ipNonempty : Bool) : List Char → Bool
  | '.' :: t =>
      (ipNonempty || !(t.takeWhile Char.isDigit).isEmpty)
        && expTail (t.dropWhile Char.isDigit)
  | r => ipNonempty && expTail r

/-- Unsigned Python `float` literal: `digits [. digits] [exp]` or
`. digits [exp]`, with at least one mantissa digit. -/
def isUFloat (l : List Char) : Bool :=
  mantOk (!(l.takeWhile Char.isDigit).isEmpty) (l.dropWhile Char.isDigit)

/-- `isnumstr` of `parser.py`: whether Python `float(text)` succeeds, i.e.
whether the string is a float literal with an optional sign.  (`inf`, `nan`
and digit-group underscores, which `float` also accepts, are left out of the
model; no claim involves them.) -/
def isnumstr (l : List Char) : Bool :=
  match l with
  | [] => isUFloat []
  | c :: t => if c = '+' || c = '-' then isUFloat t else isUFloat (c :: t)

/-- Value of a digit string (most significant first). -/
def digitsToNat (l : List Char) : ℕ :=
  l.foldl (fun acc c => 10 * acc + (c.toNat - 48)) 0

/-- Value of an exponent suffix as a power of ten. -/
def epow (l : List Char) : ℚ :=
  match l with
  | [] => 10 ^ digitsToNat []
  | c :: t =>
      if c = '-' then ((10 : ℚ) ^ digitsToNat t)⁻¹
      else if c = '+' then 10 ^ digitsToNat t
      else 10 ^ digitsToNat (c :: t)

/-- Scale a mantissa by a trailing `e`/`E` exponent suffix, if present. -/
def mulExp (m : ℚ) (l : List Char) : ℚ :=
  match l with
  | [] => m
  | c :: t => if c = 'e' || c = 'E' then m * epow t else m

/-- Value contributed by the part after the integer digits: an optional
fractional part scaled under the decimal point, then an optional exponent
suffix.  The first argument is the value of the integer digit part. -/
def mantVal (ipv : ℚ) : List Char → ℚ
  | '.' :: t =>
      mulExp
        (ipv + (digitsToNat (t.takeWhile Char.isDigit) : ℚ)
          / 10 ^ (t.takeWhile Char.isDigit).length)
        (t.dropWhile Char.isDigit)
  | r => mulExp ipv r

/-- Exact value of an unsigned float literal. -/
def uFloatValue (l : List Char) : ℚ :=
  mantVal (digitsToNat (l.takeWhile Char.isDigit) : ℚ) (l.dropWhile Char.isDigit)

/-- Exact numeric value of a string accepted by `isnumstr`.  The source picks
`int(text)` when `int(text) == float(text)` and `float(text)` otherwise
(lines 53–56); both denote the same magnitude, which is all the claims
compare. -/
def litValue (l : List Char) : ℚ :=
  match l with
  | [] => uFloatValue []
  | c :: t =>
      if c = '-' then -uFloatValue t
      else if c = '+' then uFloatValue t
      else uFloatValue (c :: t)

/-- One scan of the operator-search loop of `parse_expression` (lines
60–75): walk the text tracking parenthesis depth, and return the index and
character of the first operator of `opset` found at depth zero, together
with the final depth when no operator is found.  The depth is *not* reset
between operator sets in the source, so the final depth is threaded into
the next scan. -/
def findOpIdx (opset : List Char) : List Char → ℤ → Option (ℕ × Char) × ℤ
  | [], d => (none, d)
  | c :: rest, d =>
      if c = '(' then
        let s := findOpIdx opset rest (d + 1)
        (s.1.map (fun p => (p.1 + 1, p.2)), s.2)
      else if c = ')' then
        let s := findOpIdx opset rest (d - 1)
        (s.1.map (fun p => (p.1 + 1, p.2)), s.2)
      else if d = 0 ∧ c ∈ opset then (some (0, c), d)
      else
        let s := findOpIdx opset rest d
        (s.1.map (fun p => (p.1 + 1, p.2)), s.2)

/-- `OperatorSets` of `parser.py`: operator characters in reverse order of
precedence. -/
def OperatorSets : List (List Char) := [['+', '-'], ['*', '/'], ['^']]

/-- Iterate `findOpIdx` over the operator sets, threading the accumulated
depth (the source reuses the `depth` variable across sets), returning the
first split point found. -/
def findSplit : List (List Char) → List Char → ℤ → Option (ℕ × Char)
  | [], _, _ => none
  | ops :: rest, text, d =>
      match findOpIdx ops text d with
      | (some ic, _) => some ic
      | (none, d2) => findSplit rest text d2

/-- `OperatorMap` of `parser.py`: operator character to expression class
(`Addition(l, r)` builds a two-operand list).  Only characters drawn from
`OperatorSets` ever reach this map. -/
def opExpr : Char → Expr → Expr → Expr
  | '+', l, r => .Addition [l, r]
  | '-', l, r => .Subtraction l r
  | '*', l, r => .Multiplication l r
  | '/', l, r => .Division l r
  | '^', l, r => .Exponent l r
  | _, l, _ => l

/-- Python `str.isalpha`: non-empty and all alphabetic (the model uses ASCII
letters; the claims only use ASCII names). -/
def isalpha (l : List Char) : Bool := !l.isEmpty && l.all Char.isAlpha

/-- `parse_expression` of `parser.py`, with fuel (each recursive call is on
a strictly shorter string, so `length + 1` fuel, supplied by
`parse_expression` below, can never run out).  Branch order follows the
source: strip spaces; number literal; first top-level operator split
(recursing on both halves); surrounding parentheses; variable name;
otherwise `ValueError('Unknown expression string: ' + text)`, modelled as
`.malformed` carrying the space-stripped text.  On empty text the
parenthesis test `text[0] == '('` raises `IndexError` first. -/
def parse_fuel : ℕ → List Char → Except ParseErr Expr
  | 0, _ => .error .recursionError
  | f + 1, text0 =>
      let text := stripSpaces text0
      if isnumstr text then .ok (.Number (litValue text))
      else
        match findSplit OperatorSets text 0 with
        | some (i, c) => do
            let lhs ← parse_fuel f (text.take i)
            let rhs ← parse_fuel f (text.drop (i + 1))
            .ok (opExpr c lhs rhs)
        | none =>
            match text with
            | [] => .error .indexError
            | c0 :: rest =>
                if c0 = '(' ∧ (c0 :: rest).getLastD ' ' = ')' then
                  parse_fuel f rest.dropLast
                else if isalpha (c0 :: rest) then
                  .ok (.Variable (String.mk (c0 :: rest)))
                else .error (.malformed (c0 :: rest))

/-- `parse_expression` entry point. -/
def parse_expression (text : List Char) : Except ParseErr Expr :=
  parse_fuel (text.length + 1) text

/-- A digit character is not a space. -/
theorem isDigit_ne_space {c : Char} (h : c.isDigit = true) : c ≠ ' ' := by
  intro he
  subst he
  exact absurd h (by decide)

/-- A digit character is not a sign character, so `isnumstr` falls through
to its unsigned branch. -/
theorem isDigit_not_sign {c : Char} (h : c.isDigit = true) :
    (decide (c = '+') || decide (c = '-')) = false := by
  have h1 : c ≠ '+' := by intro he; subst he; exact absurd h (by decide)
  have h2 : c ≠ '-' := by intro he; subst he; exact absurd h (by decide)
  simp [h1, h2]

/-- `replace(' ', '')` is the identity on strings without spaces. -/
theorem stripSpaces_eq_self {l : List Char} (h : ∀ c ∈ l, c ≠ ' ') :
    stripSpaces l = l := by
  induction l with
  | nil => rfl
  | cons c t ih =>
      unfold stripSpaces at ih ⊢
      rw [List.filter_cons]
      have hc : (c != ' ') = true := by simp [h c (by simp)]
      rw [if_pos hc, ih fun x hx => h x (by simp [hx])]

/-- `takeWhile` keeps an all-digit list whole. -/
theorem takeWhile_all_digits {l : List Char} (h : l.all Char.isDigit = true) :
    l.takeWhile Char.isDigit = l := by
  induction l with
  | nil => rfl
  | cons c t ih =>
      rw [List.all_cons, Bool.and_eq_true] at h
      rw [List.takeWhile_cons, if_pos h.1, ih h.2]

/-- `dropWhile` exhausts an all-digit list. -/
theorem dropWhile_all_digits {l : List Char} (h : l.all Char.isDigit = true) :
    l.dropWhile Char.isDigit = [] := by
  induction l with
  | nil => rfl
  | cons c t ih =>
      rw [List.all_cons, Bool.and_eq_true] at h
      rw [List.dropWhile_cons, if_pos h.1, ih h.2]

/-- `takeWhile` over digits followed by a non-digit stops at the boundary. -/
theorem takeWhile_digits_append {l r : List Char} {c : Char}
    (h : l.all Char.isDigit = true) (hc : Char.isDigit c = false) :
    (l ++ c :: r).takeWhile Char.isDigit = l := by
  induction l with
  | nil => simp [List.takeWhile_cons, hc]
  | cons a t ih =>
      rw [List.all_cons, Bool.and_eq_true] at h
      rw [List.cons_append, List.takeWhile_cons, if_pos h.1, ih h.2]

/-- `dropWhile` over digits followed by a non-digit stops at the boundary. -/
theorem dropWhile_digits_append {l r : List Char} {c : Char}
    (h : l.all Char.isDigit = true) (hc : Char.isDigit c = false) :
    (l ++ c :: r).dropWhile Char.isDigit = c :: r := by
  induction l with
  | nil => simp [List.dropWhile_cons, hc]
  | cons a t ih =>
      rw [List.all_cons, Bool.and_eq_true] at h
      rw [List.cons_append, List.dropWhile_cons, if_pos h.1, ih h.2]

/-- Set membership up to `exprEq` holds for an element of the list that
compares equal to itself. -/
theorem memEq_of_self (x : Expr) (hx : exprEq x x = true) :
    ∀ (ys : List Expr), x ∈ ys → memEq x ys = true := by
  intro ys hmem
  induction ys with
  | nil => cases hmem
  | cons y t ih =>
      rcases List.mem_cons.mp hmem with h | h
      · subst h
        simp [memEq, hx]
      · simp [memEq, ih h]

/-- A list is `subsetEq`-contained in any list that `memEq`-contains each of
its elements. -/
theorem subsetEq_of_mem (xs ys : List Expr)
    (h : ∀ x ∈ xs, memEq x ys = true) : subsetEq xs ys = true := by
  induction xs with
  | nil => simp [subsetEq]
  | cons x t ih =>
      simp [subsetEq, h x (by simp), ih fun z hz => h z (by simp [hz])]

/-- `exprEq` is reflexive (Python `x == x` by `__dict__` comparison, and for
`Addition` because a set equals itself). -/
theorem exprEq_refl : ∀ (e : Expr), exprEq e e = true
  | .Number a => by simp [exprEq]
  | .Variable a => by simp [exprEq]
  | .Addition xs => by
      have h : ∀ x ∈ xs, exprEq x x = true := fun x hx => exprEq_refl x
      have hs : subsetEq xs xs = true :=
        subsetEq_of_mem xs xs fun x hx => memEq_of_self x (h x hx) xs hx
      simp [exprEq, hs]
  | .Subtraction a b => by simp [exprEq, exprEq_refl a, exprEq_refl b]
  | .Multiplication a b => by simp [exprEq, exprEq_refl a, exprEq_refl b]
  | .Division a b => by simp [exprEq, exprEq_refl a, exprEq_refl b]
  | .Exponent a b => by simp [exprEq, exprEq_refl a, exprEq_refl b]
  | .AbsoluteValue a => by simp [exprEq, exprEq_refl a]
  | .Sine a => by simp [exprEq, exprEq_refl a]
  | .Cosine a => by simp [exprEq, exprEq_refl a]
termination_by e => sizeOf e
decreasing_by
  all_goals simp_wf
  all_goals first
    | (have hlt := List.sizeOf_lt_of_mem hx; omega)
    | omega

/-- Claim C1: the spec says `Addition.evaluate` returns the sum of the
recursive evaluations of its operands, and in particular that
`Addition(Number(1), Number(2))` evaluates to `3`.  The code instead
computes `sum(self.operands)` over the operand objects themselves, which
raises `TypeError` because `Expression` defines no addition; this theorem
evaluates the code at that failing input. -/
theorem addition_evaluate_typeError :
    evaluate 2 (.Addition [.Number 1, .Number 2]) none = .error .typeError := rfl

/-- Claim C2 (counterexample): differentiating
`Multiplication(Variable("x"), Number(5))` with respect to `"x"` does not
return the product-rule tree
`Addition(Multiplication(l, d(r)), Multiplication(r, d(l)))` claimed by the
spec; it raises `NotImplementedError`. -/
theorem multiplication_differentiate_not_product_rule :
    differentiate 2 (.Multiplication (.Variable "x") (.Number 5)) "x" none
      = .error .notImplementedError ∧
    (Except.error .notImplementedError : Except PyErr Expr)
      ≠ .ok (.Addition
          [.Multiplication (.Variable "x") (.Number 0),
           .Multiplication (.Number 5) (.Number 1)]) := by
  exact ⟨rfl, by simp⟩

/-- Claim C2 (amended): `Multiplication.differentiate` raises
`NotImplementedError('Differentiation of multiplication expressions has not
been implemented')` for every multiplication node, differentiation
variable and environment; no product-rule tree is built. -/
theorem multiplication_differentiate_notImplemented
    (f : ℕ) (l r : Expr) (rt : String) (vm : Option VariableMap) :
    differentiate (f + 1) (.Multiplication l r) rt vm
      = .error .notImplementedError := rfl

/-- Claim C3: the spec says `Multiplication.simplify` collapses a zero
operand to `Number(0)`, drops operands equal to `1`, and folds numeric
operands to their product.  The method's first statement,
`self.operands = [x.simplify() for x in operands]`, reads the undefined
bare name `operands` (and `Multiplication` instances store `left`/`right`,
not `operands`), so it raises `NameError` unconditionally; this theorem
evaluates the code at an input the claim says should give `Number(0)`. -/
theorem multiplication_simplify_nameError :
    simplify (.Multiplication (.Number 0) (.Number 5)) = .error .nameError := rfl

/-- Claim C4: the spec says `Division.simplify` cancels `(x*y)/y` to the
other factor of the numerator.  Simplifying such a quotient first
simplifies the numerator, a `Multiplication`, whose `simplify` raises
`NameError` (see C3); moreover the cancellation branch itself (lines
371–374) returns `self.left` — the entire product — contrary to its own
comment.  This theorem evaluates the code at the claim's input shape. -/
theorem division_cancellation_simplify_nameError :
    simplify (.Division (.Multiplication (.Variable "x") (.Variable "y"))
        (.Variable "y"))
      = .error .nameError := rfl

/-- Claim C5 (counterexample): the derivative of the tree parsed from
`"x^2"` is not structurally equal to the spec's claimed tree
`Multiplication(Multiplication(Number(2), Exponent(Variable("x"),
Number(1))), Number(1))`: the unsimplified power rule leaves the exponent
as `Subtraction(Number(2), Number(1))`, and simplifying the actual
derivative raises `NameError` instead of enabling evaluation to `6`. -/
theorem differentiate_x_sq_not_claimed_form :
    parse_expression ['x', '^', '2']
      = .ok (.Exponent (.Variable "x") (.Number 2)) ∧
    differentiate 4 (.Exponent (.Variable "x") (.Number 2)) "x" none
      = .ok (.Multiplication
          (.Multiplication (.Number 2)
            (.Exponent (.Variable "x") (.Subtraction (.Number 2) (.Number 1))))
          (.Number 1)) ∧
    exprEq
      (.Multiplication
        (.Multiplication (.Number 2)
          (.Exponent (.Variable "x") (.Subtraction (.Number 2) (.Number 1))))
        (.Number 1))
      (.Multiplication
        (.Multiplication (.Number 2) (.Exponent (.Variable "x") (.Number 1)))
        (.Number 1)) = false ∧
    simplify
      (.Multiplication
        (.Multiplication (.Number 2)
          (.Exponent (.Variable "x") (.Subtraction (.Number 2) (.Number 1))))
        (.Number 1)) = .error .nameError := by
  refine ⟨rfl, rfl, ?_, rfl⟩
  have hsn : exprEq (.Subtraction (.Number 2) (.Number 1)) (.Number 1) = false := by
    rw [exprEq.eq_def]
  norm_num [exprEq, hsn]

/-- Claim C5 (amended): differentiating the tree parsed from `"x^2"` with
respect to `"x"` yields
`Multiplication(Multiplication(Number(2), Exponent(Variable("x"),
Subtraction(Number(2), Number(1)))), Number(1))` — the inner exponent is
the unsimplified `Subtraction(2, 1)`, not `Number(1)`.  Simplifying this
tree fails with `NameError` (`Multiplication.simplify` reads the undefined
name `operands`), but evaluating it directly in an environment binding `x`
to `3` yields `6`. -/
theorem differentiate_x_sq_actual_form :
    parse_expression ['x', '^', '2']
      = .ok (.Exponent (.Variable "x") (.Number 2)) ∧
    differentiate 4 (.Exponent (.Variable "x") (.Number 2)) "x" none
      = .ok (.Multiplication
          (.Multiplication (.Number 2)
            (.Exponent (.Variable "x") (.Subtraction (.Number 2) (.Number 1))))
          (.Number 1)) ∧
    evaluate 10
      (.Multiplication
        (.Multiplication (.Number 2)
          (.Exponent (.Variable "x") (.Subtraction (.Number 2) (.Number 1))))
        (.Number 1))
      (some [("x", .Number 3)]) = .ok 6 ∧
    simplify
      (.Multiplication
        (.Multiplication (.Number 2)
          (.Exponent (.Variable "x") (.Subtraction (.Number 2) (.Number 1))))
        (.Number 1)) = .error .nameError := by
  refine ⟨rfl, rfl, ?_, rfl⟩
  norm_num [evaluate, pypow, List.lookup, Bind.bind, Except.bind]

/-- Claim C6 (counterexample): `Multiplication(Number(1), Number(2))` and
`Multiplication(Number(2), Number(1))` are not equal under the code's
structural equality — `Multiplication` subclasses `BinaryExpression`, whose
inherited `Expression.__eq__` compares the `left`/`right` fields in order,
so the claimed commutative equality fails. -/
theorem multiplication_eq_not_commutative :
    exprEq (.Multiplication (.Number 1) (.Number 2))
        (.Multiplication (.Number 2) (.Number 1)) = false := by
  norm_num [exprEq]

/-- Claim C6 (amended): `Addition(a, b) == Addition(b, a)` holds for all
expression pairs (the `MultiOperandExpression.__eq__` set comparison
ignores order), but `Multiplication` — still a `BinaryExpression` in this
version of the source — compares operands pairwise in order, so
`Multiplication(a, b) == Multiplication(b, a)` reduces to `a == b` in both
orders rather than holding unconditionally. -/
theorem addition_eq_commutative_multiplication_ordered (a b : Expr) :
    exprEq (.Addition [a, b]) (.Addition [b, a]) = true ∧
    exprEq (.Multiplication a b) (.Multiplication b a)
      = (exprEq a b && exprEq b a) := by
  refine ⟨?_, ?_⟩
  · simp [exprEq, subsetEq, memEq, exprEq_refl]
  · simp [exprEq]


/-- All-digit strings contain no space. -/
theorem no_space_digits {l : List Char} (h : l.all Char.isDigit = true) :
    ∀ c ∈ l, c ≠ ' ' :=
  fun c hc => isDigit_ne_space (List.all_eq_true.mp h c hc)

/-- A space-free string that passes `isnumstr` takes the number branch of
`parse_expression` (line 52 of `parser.py`). -/
theorem parse_numstring (s : List Char) (hsp : stripSpaces s = s)
    (hnum : isnumstr s = true) :
    parse_expression s = .ok (.Number (litValue s)) := by
  unfold parse_expression
  simp only [parse_fuel]
  rw [hsp, hnum]
  simp

/-- The sign test of `isnumstr` falls through on a digit head. -/
theorem isnumstr_digit_head {c : Char} {t : List Char} (hc : c.isDigit = true) :
    isnumstr (c :: t) = isUFloat (c :: t) := by
  simp only [isnumstr]
  rw [isDigit_not_sign hc]
  simp

/-- The sign test of `litValue` falls through on a digit head. -/
theorem litValue_digit_head {c : Char} {t : List Char} (hc : c.isDigit = true) :
    litValue (c :: t) = uFloatValue (c :: t) := by
  have h1 : c ≠ '-' := fun he => by subst he; exact absurd hc (by decide)
  have h2 : c ≠ '+' := fun he => by subst he; exact absurd hc (by decide)
  simp only [litValue]
  rw [if_neg h1, if_neg h2]

/-- A leading minus sign is consumed by `isnumstr`. -/
theorem isnumstr_neg (l : List Char) : isnumstr ('-' :: l) = isUFloat l := rfl

/-- A leading minus sign negates the literal value. -/
theorem litValue_neg (l : List Char) : litValue ('-' :: l) = -uFloatValue l := rfl

/-- A non-empty all-digit string is an unsigned float literal. -/
theorem isUFloat_int {ip : List Char} (hip : ip ≠ [])
    (hipd : ip.all Char.isDigit = true) : isUFloat ip = true := by
  unfold isUFloat
  rw [takeWhile_all_digits hipd, dropWhile_all_digits hipd]
  cases ip with
  | nil => exact absurd rfl hip
  | cons a t => simp [mantOk, expTail]

/-- Value of a non-empty all-digit string. -/
theorem uFloatValue_int {ip : List Char} (hipd : ip.all Char.isDigit = true) :
    uFloatValue ip = (digitsToNat ip : ℚ) := by
  unfold uFloatValue
  rw [takeWhile_all_digits hipd, dropWhile_all_digits hipd]
  simp [mantVal, mulExp]

/-- `digits.digits` is an unsigned float literal. -/
theorem isUFloat_dec {ip fp : List Char} (hip : ip ≠ [])
    (hipd : ip.all Char.isDigit = true) (hfpd : fp.all Char.isDigit = true) :
    isUFloat (ip ++ '.' :: fp) = true := by
  unfold isUFloat
  rw [takeWhile_digits_append hipd (by decide),
    dropWhile_digits_append hipd (by decide)]
  simp only [mantOk]
  rw [dropWhile_all_digits hfpd]
  cases ip with
  | nil => exact absurd rfl hip
  | cons a t => simp [expTail]

/-- Value of `digits.digits`. -/
theorem uFloatValue_dec {ip fp : List Char}
    (hipd : ip.all Char.isDigit = true) (hfpd : fp.all Char.isDigit = true) :
    uFloatValue (ip ++ '.' :: fp)
      = (digitsToNat ip : ℚ) + (digitsToNat fp : ℚ) / 10 ^ fp.length := by
  unfold uFloatValue
  rw [takeWhile_digits_append hipd (by decide),
    dropWhile_digits_append hipd (by decide)]
  simp only [mantVal]
  rw [takeWhile_all_digits hfpd, dropWhile_all_digits hfpd]
  simp [mulExp]

/-- Claim C7: for every numeric literal — optional minus sign, a non-empty
integer digit part, and an optional decimal part — parsing its textual form
yields the `Number` holding its exact value, and evaluating that `Number`
with no environment returns the same value. -/
theorem parse_literal_roundtrip (neg : Bool) (ip fp : List Char)
    (hip : ip ≠ []) (hipd : ip.all Char.isDigit = true)
    (hfpd : fp.all Char.isDigit = true) :
    parse_expression
        ((if neg then ['-'] else []) ++ ip
          ++ (if fp.isEmpty then [] else '.' :: fp))
      = .ok (.Number ((if neg then (-1 : ℚ) else 1)
          * ((digitsToNat ip : ℚ) + (digitsToNat fp : ℚ) / 10 ^ fp.length)))
    ∧ evaluate 1
        (.Number ((if neg then (-1 : ℚ) else 1)
          * ((digitsToNat ip : ℚ) + (digitsToNat fp : ℚ) / 10 ^ fp.length)))
        none
      = .ok ((if neg then (-1 : ℚ) else 1)
          * ((digitsToNat ip : ℚ) + (digitsToNat fp : ℚ) / 10 ^ fp.length)) := by
  refine ⟨?_, rfl⟩
  obtain ⟨i0, ip2, rfl⟩ : ∃ c t, ip = c :: t := by
    cases ip with
    | nil => exact absurd rfl hip
    | cons a t => exact ⟨a, t, rfl⟩
  have hi0 : Char.isDigit i0 = true := by
    rw [List.all_cons, Bool.and_eq_true] at hipd
    exact hipd.1
  cases neg with
  | false =>
      simp only [Bool.false_eq_true, if_false, List.nil_append]
      cases fp with
      | nil =>
          simp only [List.isEmpty_nil, eq_self_iff_true, if_true, List.append_nil]
          have hstripx : stripSpaces (i0 :: ip2) = i0 :: ip2 :=
            stripSpaces_eq_self (no_space_digits hipd)
          have hnumx : isnumstr (i0 :: ip2) = true := by
            rw [isnumstr_digit_head hi0]
            exact isUFloat_int hip hipd
          rw [parse_numstring _ hstripx hnumx, litValue_digit_head hi0,
            uFloatValue_int hipd]
          norm_num [digitsToNat]
      | cons f0 fp2 =>
          simp only [List.isEmpty_cons, Bool.false_eq_true, if_false]
          have hmem : ∀ c ∈ (i0 :: ip2) ++ '.' :: f0 :: fp2, c ≠ ' ' := by
            intro c hc
            rcases List.mem_append.mp hc with h1 | h2
            · exact no_space_digits hipd c h1
            · rcases List.mem_cons.mp h2 with rfl | h3
              · decide
              · exact no_space_digits hfpd c h3
          have hstripx : stripSpaces ((i0 :: ip2) ++ '.' :: f0 :: fp2)
              = (i0 :: ip2) ++ '.' :: f0 :: fp2 :=
            stripSpaces_eq_self hmem
          have hnumx : isnumstr ((i0 :: ip2) ++ '.' :: f0 :: fp2) = true := by
            rw [List.cons_append, isnumstr_digit_head hi0, ← List.cons_append]
            exact isUFloat_dec hip hipd hfpd
          have hlitx : litValue ((i0 :: ip2) ++ '.' :: f0 :: fp2)
              = uFloatValue ((i0 :: ip2) ++ '.' :: f0 :: fp2) := by
            rw [List.cons_append, litValue_digit_head hi0, ← List.cons_append]
          rw [parse_numstring _ hstripx hnumx, hlitx, uFloatValue_dec hipd hfpd]
          norm_num
  | true =>
      simp only [eq_self_iff_true, if_true, List.singleton_append]
      cases fp with
      | nil =>
          simp only [List.isEmpty_nil, eq_self_iff_true, if_true, List.append_nil]
          have hstripx : stripSpaces ('-' :: i0 :: ip2) = '-' :: i0 :: ip2 := by
            apply stripSpaces_eq_self
            intro c hc
            rcases List.mem_cons.mp hc with rfl | h1
            · decide
            · exact no_space_digits hipd c h1
          have hnumx : isnumstr ('-' :: i0 :: ip2) = true := by
            rw [isnumstr_neg]
            exact isUFloat_int hip hipd
          rw [parse_numstring _ hstripx hnumx, litValue_neg, uFloatValue_int hipd]
          norm_num [digitsToNat]
      | cons f0 fp2 =>
          simp only [List.isEmpty_cons, Bool.false_eq_true, if_false]
          have hmem : ∀ c ∈ '-' :: ((i0 :: ip2) ++ '.' :: f0 :: fp2), c ≠ ' ' := by
            intro c hc
            rcases List.mem_cons.mp hc with rfl | h0
            · decide
            · rcases List.mem_append.mp h0 with h1 | h2
              · exact no_space_digits hipd c h1
              · rcases List.mem_cons.mp h2 with rfl | h3
                · decide
                · exact no_space_digits hfpd c h3
          have hstripx : stripSpaces ('-' :: ((i0 :: ip2) ++ '.' :: f0 :: fp2))
              = '-' :: ((i0 :: ip2) ++ '.' :: f0 :: fp2) :=
            stripSpaces_eq_self hmem
          have hnumx : isnumstr ('-' :: ((i0 :: ip2) ++ '.' :: f0 :: fp2)) = true := by
            rw [isnumstr_neg]
            exact isUFloat_dec hip hipd hfpd
          have hgoal : parse_expression ('-' :: ((i0 :: ip2) ++ '.' :: f0 :: fp2))
              = .ok (.Number (litValue ('-' :: ((i0 :: ip2) ++ '.' :: f0 :: fp2)))) :=
            parse_numstring _ hstripx hnumx
          rw [List.cons_append, hgoal, litValue_neg, uFloatValue_dec hipd hfpd]
          norm_num

/-- Claim C7 (witness): the decimal literal `-12.5` parses to
`Number(-25/2)` and evaluates to `-25/2`. -/
theorem parse_literal_roundtrip_witness :
    parse_expression ['-', '1', '2', '.', '5'] = .ok (.Number (-(25 / 2 : ℚ)))
    ∧ evaluate 1 (.Number (-(25 / 2 : ℚ))) none = .ok (-(25 / 2 : ℚ)) := by
  have h := parse_literal_roundtrip true ['1', '2'] ['5']
    (by decide) (by decide) (by decide)
  have hv : (if true then (-1 : ℚ) else 1)
      * ((digitsToNat ['1', '2'] : ℚ) + (digitsToNat ['5'] : ℚ) / 10 ^ (['5'].length))
      = -(25 / 2 : ℚ) := by
    have h5 : digitsToNat ['5'] = 5 := rfl
    have h12 : digitsToNat ['1', '2'] = 12 := rfl
    rw [h5, h12]
    norm_num
  rw [hv] at h
  exact h

/-- Claim C8 (counterexample): the empty input is not a number, variable,
parenthesized group or operator expression, yet `parse_expression` does not
fail with the malformed-expression error carrying it: the parenthesis test
`text[0] == '('` raises `IndexError` first. -/
theorem parse_empty_indexError :
    parse_expression [] = .error .indexError ∧
    ParseErr.indexError ≠ ParseErr.malformed [] := by
  exact ⟨rfl, by decide⟩

/-- Claim C8 (amended): for every input whose space-stripped form is
non-empty, is not a number literal, contains no top-level operator of any
precedence tier, is not wrapped in `(`…`)`, and is not alphabetic,
`parse_expression` fails with the `ValueError('Unknown expression string:
...')` carrying the space-stripped text (modelled as `.malformed`); the
empty string instead hits an `IndexError`. -/
theorem parse_unclassified_malformed (t : List Char) (c0 : Char) (rest : List Char)
    (hs : stripSpaces t = c0 :: rest)
    (hnum : isnumstr (c0 :: rest) = false)
    (hop : findSplit OperatorSets (c0 :: rest) 0 = none)
    (hpar : ¬(c0 = '(' ∧ (c0 :: rest).getLastD ' ' = ')'))
    (halpha : isalpha (c0 :: rest) = false) :
    parse_expression t = .error (.malformed (c0 :: rest)) := by
  unfold parse_expression
  simp only [parse_fuel]
  rw [hs, hnum, hop]
  simp only [Bool.false_eq_true, if_false]
  rw [if_neg hpar, halpha]
  simp

/-- Claim C8 (witness): the input `"$"` is rejected with the
malformed-expression error carrying `"$"`. -/
theorem parse_unclassified_malformed_witness :
    parse_expression ['$'] = .error (.malformed ['$']) :=
  parse_unclassified_malformed ['$'] '$' [] rfl (by decide) (by decide)
    (by decide) (by decide)

/-- Claim C9: `AbsoluteValue(Number(-5)).simplify()` returns the
`AbsoluteValue` node uncollapsed (only non-negative numeric constants are
collapsed), while `AbsoluteValue(Number(5)).simplify()` returns
`Number(5)`. -/
theorem absoluteValue_simplify_constants :
    simplify (.AbsoluteValue (.Number (-5)))
      = .ok (.AbsoluteValue (.Number (-5))) ∧
    simplify (.AbsoluteValue (.Number 5)) = .ok (.Number 5) := by
  constructor
  · norm_num [simplify, Bind.bind, Except.bind]
  · norm_num [simplify, Bind.bind, Except.bind]

/-- Claim C10 (counterexample): a `Division` whose right child evaluates to
zero need not fail with the division-by-zero error: if the left child fails
first — here `Variable("x")` with no environment — that `ValueError`
propagates instead, because `Division.evaluate` evaluates
`self.left.evaluate(vm)` before dividing. -/
theorem division_by_zero_left_error_first :
    evaluate 1 (.Number 0) none = .ok 0 ∧
    evaluate 2 (.Division (.Variable "x") (.Number 0)) none
      = .error (.noValueError "x") ∧
    PyErr.noValueError "x" ≠ PyErr.zeroDivisionError := by
  exact ⟨rfl, rfl, by decide⟩

/-- Claim C10 (amended): if the right child of a `Division` evaluates to
zero, `evaluate` never returns a value; when the left child also evaluates
successfully, the failure is precisely `ZeroDivisionError` — there is no
guard and no special-cased result for a zero denominator.  If the left
child fails, its error propagates first. -/
theorem division_by_zero_evaluate (f : ℕ) (l r : Expr) (vm : Option VariableMap)
    (hr : evaluate f r vm = .ok 0) :
    (∀ q : ℚ, evaluate (f + 1) (.Division l r) vm ≠ .ok q) ∧
    (∀ a : ℚ, evaluate f l vm = .ok a →
        evaluate (f + 1) (.Division l r) vm = .error .zeroDivisionError) := by
  have hstep : evaluate (f + 1) (.Division l r) vm
      = (evaluate f l vm).bind (fun a => (evaluate f r vm).bind (fun b =>
          if b = 0 then .error .zeroDivisionError else .ok (a / b))) := rfl
  cases hl : evaluate f l vm with
  | error e =>
      constructor
      · intro q hq
        rw [hstep, hl] at hq
        simp [Bind.bind, Except.bind] at hq
      · intro a ha
        exact absurd ha (by simp)
  | ok a =>
      constructor
      · intro q hq
        rw [hstep, hl, hr] at hq
        simp [Bind.bind, Except.bind] at hq
      · intro a2 ha
        rw [hstep, hl, hr]
        simp [Bind.bind, Except.bind]

/-- Claim C10 (amended, witness): `Division(Number(1), Number(0))` evaluates
to the division-by-zero error. -/
theorem division_by_zero_evaluate_witness :
    evaluate 2 (.Division (.Number 1) (.Number 0)) none
      = .error .zeroDivisionError :=
  (division_by_zero_evaluate 1 (.Number 1) (.Number 0) none rfl).2 1 rfl
